import Mathlib

/-!
Shallow embedding of `src/main.rs` of mustakimali/csvtosqlite: the
schema-inference and SQL-synthesis engine (identifier normalisation, type
inference from a sample value, CREATE TABLE / batched INSERT synthesis, and
the chunked ingestion loop), together with theorems checking the
specification's claims against it.

Rust `String` buffers are modelled as Lean `String` (a wrapper around
`List Char`); `buffer.remove(i)` becomes `removeAt` (erase the character at
index `i`; all removal sites in the source have the last two characters
ASCII, so byte indices and character indices coincide there).  Library
calls of the source (`str::parse`, chrono parsers, `to_lowercase`,
`eq_ignore_ascii_case`) are modelled as executable Lean functions following
the documented grammars of those libraries.
-/

namespace CsvToSqlite

/-- The single-quote character `'` (written via its code point to keep the
source text free of quote literals). -/
def squote : Char := Char.ofNat 39

/-- The double-quote character. -/
def dquote : Char := Char.ofNat 34

/-- The backslash character. -/
def bslash : Char := Char.ofNat 92

/-- `enum SqlType` from the source. -/
inductive SqlType where
  | String
  | Integer
  | Boolean
  | Float
  | IsoDateTime
  | NaiveDate
deriving DecidableEq

/-- `const RESERVED: [&str; 116]` from the source. -/
def RESERVED : List String := [
  "add", "all", "alter", "and", "as", "asc", "autoincrement", "between",
  "by", "cascade", "case", "cast", "check", "collate", "column", "commit",
  "conflict", "constraint", "create", "cross", "current_date",
  "current_time", "current_timestamp", "database", "default", "deferrable",
  "deferred", "delete", "desc", "distinct", "drop", "each", "else", "end",
  "escape", "except", "exclusive", "exists", "explain", "fail", "for",
  "foreign", "from", "full", "glob", "group", "having", "if", "ignore",
  "immediate", "in", "index", "indexed", "initially", "inner", "insert",
  "instead", "intersect", "into", "is", "isnull", "join", "key", "left",
  "like", "limit", "match", "natural", "no", "not", "notnull", "null",
  "of", "offset", "on", "or", "order", "outer", "plan", "pragma",
  "primary", "query", "raise", "recursive", "references", "regexp",
  "reindex", "release", "rename", "replace", "restrict", "right",
  "rollback", "row", "savepoint", "select", "set", "table", "temp",
  "temporary", "then", "to", "transaction", "trigger", "union", "unique",
  "update", "using", "vacuum", "values", "view", "virtual", "when",
  "where", "with", "without"]

/-- Numeric value of a string of ASCII digits (most significant first). -/
def digitsVal (ds : List Char) : Nat := ds.foldl (fun a c => a * 10 + (c.toNat - 48)) 0

/-- Model of Rust `str::parse::<i64>().is_ok()`: an optional sign followed
by at least one ASCII digit, with the value in the range of `i64`. -/
def parseI64ok (s : String) : Bool :=
  match s.data with
  | [] => false
  | c :: rest =>
    let p : Bool × List Char :=
      if c = '-' then (true, rest)
      else if c = '+' then (false, rest)
      else (false, c :: rest)
    !p.2.isEmpty && p.2.all Char.isDigit &&
      (if p.1 then digitsVal p.2 ≤ 9223372036854775808
       else digitsVal p.2 ≤ 9223372036854775807)

/-- After an `e`/`E` of a float exponent: optional sign, then digits. -/
def expTail (cs : List Char) : Bool :=
  match cs with
  | [] => false
  | c :: rest =>
    let ds := if c = '+' || c = '-' then rest else c :: rest
    !ds.isEmpty && ds.all Char.isDigit

/-- Optional exponent part of the Rust float grammar, consuming the rest. -/
def expOk (cs : List Char) : Bool :=
  match cs with
  | [] => true
  | c :: rest => (c = 'e' || c = 'E') && expTail rest

/-- `Number` of the Rust `f64` grammar: `Count '.'? Count? Exp?` or
`'.' Count Exp?`. -/
def numberOk (cs : List Char) : Bool :=
  let d1 := cs.takeWhile Char.isDigit
  let r1 := cs.dropWhile Char.isDigit
  if d1.isEmpty then
    match r1 with
    | '.' :: r2 =>
      !(r2.takeWhile Char.isDigit).isEmpty && expOk (r2.dropWhile Char.isDigit)
    | _ => false
  else
    match r1 with
    | '.' :: r2 => expOk (r2.dropWhile Char.isDigit)
    | r => expOk r

/-- `inf`, `infinity`, `nan`, case-insensitively. -/
def f64Special (cs : List Char) : Bool :=
  let l := cs.map Char.toLower
  l == ['i', 'n', 'f'] || l == ['i', 'n', 'f', 'i', 'n', 'i', 't', 'y'] ||
    l == ['n', 'a', 'n']

/-- Strip one optional leading sign. -/
def stripSign (cs : List Char) : List Char :=
  match cs with
  | [] => []
  | c :: rest => if c = '+' || c = '-' then rest else c :: rest

/-- Model of Rust `str::parse::<f64>().is_ok()`: the documented grammar
`Sign? ('inf' | 'infinity' | 'nan' | Number)`.  Overflow yields infinity,
still `Ok`, so acceptance is purely grammatical. -/
def parseF64ok (s : String) : Bool :=
  f64Special (stripSign s.data) || numberOk (stripSign s.data)

/-- Proleptic Gregorian leap year, as used by chrono. -/
def isLeapYear (y : Nat) : Bool := (y % 4 == 0 && y % 100 != 0) || y % 400 == 0

/-- Days in a month. -/
def daysInMonth (y m : Nat) : Nat :=
  if m = 2 then (if isLeapYear y then 29 else 28)
  else if m = 4 || m = 6 || m = 9 || m = 11 then 30
  else 31

/-- Validity of a calendar date. -/
def validYmd (y m d : Nat) : Bool :=
  1 ≤ m && m ≤ 12 && 1 ≤ d && d ≤ daysInMonth y m

/-- One ASCII digit as a number. -/
def digit? (c : Char) : Option Nat := if c.isDigit then some (c.toNat - 48) else none

/-- Exactly two digits. -/
def read2 (cs : List Char) : Option (Nat × List Char) :=
  match cs with
  | a :: b :: r =>
    match digit? a, digit? b with
    | some x, some y => some (x * 10 + y, r)
    | _, _ => none
  | _ => none

/-- Exactly four digits. -/
def read4 (cs : List Char) : Option (Nat × List Char) :=
  match read2 cs with
  | some (x, r) =>
    match read2 r with
    | some (y, r2) => some (x * 100 + y, r2)
    | none => none
  | none => none

/-- One or two digits (chrono's numeric fields accept an unpadded digit). -/
def read1or2 (cs : List Char) : Option (Nat × List Char) :=
  match cs with
  | [] => none
  | [a] =>
    match digit? a with
    | some x => some (x, [])
    | none => none
  | a :: b :: r =>
    match digit? a, digit? b with
    | some x, some y => some (x * 10 + y, r)
    | some x, none => some (x, b :: r)
    | none, _ => none

/-- Expect one given character. -/
def expectChar (c : Char) (cs : List Char) : Option (List Char) :=
  match cs with
  | [] => none
  | x :: r => if x = c then some r else none

/-- RFC 3339 offset: `Z`/`z` or `±HH:MM`, consuming the rest. -/
def offsetOk (cs : List Char) : Bool :=
  match cs with
  | [c] => c = 'Z' || c = 'z'
  | c :: r =>
    (c = '+' || c = '-') &&
      (match read2 r with
       | some (hh, r2) =>
         (match r2 with
          | ':' :: r3 =>
            (match read2 r3 with
             | some (mm, r4) => hh ≤ 23 && mm ≤ 59 && r4.isEmpty
             | none => false)
          | _ => false)
       | none => false)
  | [] => false

/-- After the seconds: optional `.digits`, then the offset. -/
def fracTail (cs : List Char) : Bool :=
  match cs with
  | '.' :: r =>
    !(r.takeWhile Char.isDigit).isEmpty && offsetOk (r.dropWhile Char.isDigit)
  | r => offsetOk r

/-- Model of `chrono::DateTime::parse_from_rfc3339(val).is_ok()`:
`YYYY-MM-DD` then `T`/`t`, `HH:MM:SS`, optional fraction, and an offset,
with the fields in range (chrono admits a leap second 60). -/
def rfc3339Ok (s : String) : Bool :=
  (do
    let (y, r) ← read4 s.data
    let r ← expectChar '-' r
    let (mo, r) ← read2 r
    let r ← expectChar '-' r
    let (d, r) ← read2 r
    let r ← (match r with
             | t :: rr => if t = 'T' || t = 't' then some rr else none
             | [] => none)
    let (hh, r) ← read2 r
    let r ← expectChar ':' r
    let (mi, r) ← read2 r
    let r ← expectChar ':' r
    let (ss, r) ← read2 r
    if validYmd y mo d && hh ≤ 23 && mi ≤ 59 && ss ≤ 60 && fracTail r then
      some ()
    else none).isSome

/-- Model of `chrono::NaiveDate::parse_from_str(val, "%Y-%m-%d").is_ok()`:
a four-digit year, dashes, one-or-two-digit month and day, a valid
calendar date, and the whole input consumed. -/
def naiveDateOk (s : String) : Bool :=
  (do
    let (y, r) ← read4 s.data
    let r ← expectChar '-' r
    let (mo, r) ← read1or2 r
    let r ← expectChar '-' r
    let (d, r) ← read1or2 r
    if r.isEmpty && validYmd y mo d then some () else none).isSome

/-- Model of Rust `str::eq_ignore_ascii_case` (ASCII case folding only;
`Char.toLower` affects exactly the basic latin capitals). -/
def eqIgnoreAsciiCase (a b : String) : Bool :=
  a.data.map Char.toLower == b.data.map Char.toLower

/-- `determine_sql_type` from the source: six predicates tried in a fixed
order, first match wins. -/
def determine_sql_type (val : String) : SqlType :=
  if parseI64ok val then .Integer
  else if parseF64ok val then .Float
  else if rfc3339Ok val then .IsoDateTime
  else if naiveDateOk val then .NaiveDate
  else if eqIgnoreAsciiCase val "true" || eqIgnoreAsciiCase val "false" then .Boolean
  else .String

/-- `struct CsvHeader` from the source. -/
structure CsvHeader where
  title : String
  normalised : String
  ty : SqlType
deriving DecidableEq

/-- The per-character mapping of `CsvHeader::new`: keep ASCII letters and
digits, map `%` to `p`, and every other character to `_`. -/
def normChar (c : Char) : Char :=
  if (('a' ≤ c ∧ c ≤ 'z') ∨ ('A' ≤ c ∧ c ≤ 'Z') ∨ ('0' ≤ c ∧ c ≤ '9')) then c
  else if c = '%' then 'p'
  else '_'

/-- The identifier normalisation of `CsvHeader::new`: map every character
with `normChar`, lower-case the result, and append `_` when it is a
reserved word.  (`to_lowercase` acts character-wise and only on the basic
latin capitals here, since `normChar` leaves only ASCII.) -/
def normalizeHeader (title : String) : String :=
  if RESERVED.contains (String.mk ((title.data.map normChar).map Char.toLower))
  then (String.mk ((title.data.map normChar).map Char.toLower)).push '_'
  else String.mk ((title.data.map normChar).map Char.toLower)

/-- `CsvHeader::new` from the source. -/
def CsvHeader.new (title : String) (ty : SqlType) : CsvHeader :=
  { title := title, normalised := normalizeHeader title, ty := ty }

/-- `CsvHeader::ty_str` from the source: SQL type keyword per variant. -/
def CsvHeader.ty_str (h : CsvHeader) : String :=
  match h.ty with
  | .String => "TEXT"
  | .Integer => "INTEGER"
  | .Float => "REAL"
  | .IsoDateTime => "TIMESTAMP"
  | .NaiveDate => "DATE"
  | .Boolean => "BOOLEAN"

/-- `CsvHeader::need_quotes` from the source. -/
def CsvHeader.need_quotes (h : CsvHeader) : Bool :=
  match h.ty with
  | .String => true
  | .IsoDateTime => true
  | .NaiveDate => true
  | .Integer | .Boolean | .Float => false

/-- `CsvHeader::with_type` from the source. -/
def CsvHeader.with_type (h : CsvHeader) (ty : SqlType) : CsvHeader :=
  { title := h.title, normalised := h.normalised, ty := ty }

/-- Model of Rust `str::replace` for a single-character pattern: every
occurrence of `c` becomes the character sequence `r`. -/
def replaceChar (c : Char) (r : List Char) (s : String) : String :=
  String.mk (s.data.flatMap (fun x => if x = c then r else [x]))

/-- The value escaping of `insert_row_sql_batch`:
`v.replace('"' -> '\"').replace(squote -> squote squote)`, in that order. -/
def escapeValue (v : String) : String :=
  replaceChar squote [squote, squote] (replaceChar dquote [bslash, dquote] v)

/-- One quote character as a string. -/
def squoteStr : String := String.mk [squote]

/-- The per-field rendering of `insert_row_sql_batch`, without the `, `
separator the source appends to it. -/
def renderValue (h : CsvHeader) (v : String) : String :=
  if v = "" then "NULL"
  else if h.need_quotes then squoteStr ++ escapeValue v ++ squoteStr
  else v

/-- The exact text `insert_row_sql_batch` pushes for one field: empty
fields become `NULL, `, quoted columns `'<escaped>', `, others `<v>, `. -/
def renderField (h : CsvHeader) (v : String) : String :=
  if v = "" then "NULL, "
  else if h.need_quotes then squoteStr ++ escapeValue v ++ squoteStr ++ ", "
  else v ++ ", "

/-- Model of Rust `String::remove(i)` (drop the character at index `i`).
The source always calls it with the index of an ASCII character, where
byte and character indices coincide.  (The Rust call panics when the index
is out of bounds; every call site here is in bounds.) -/
def removeAt (s : String) (i : Nat) : String := String.mk (s.data.eraseIdx i)

/-- The per-row body of `insert_row_sql_batch`: push `(`, push one field
per `headers.zip(row)` pair, remove the trailing comma (the character two
before the end), push `), `. -/
def rowStep (headers : List CsvHeader) (b : String) (row : List String) : String :=
  let b1 := b ++ "("
  let b2 := (headers.zip row).foldl (fun acc p => acc ++ renderField p.1 p.2) b1
  let b3 := removeAt b2 (b2.length - 2)
  b3 ++ "), "

/-- `insert_row_sql_batch` from the source: builds the batched INSERT text
into a cleared buffer and returns it with the number of rows consumed. -/
def insert_row_sql_batch (table : String) (headers : List CsvHeader)
    (rows : List (List String)) : String × Nat :=
  let b0 := "INSERT INTO " ++ table ++ " ("
  let b1 := headers.foldl (fun acc h => acc ++ h.normalised ++ ", ") b0
  let b2 := removeAt b1 (b1.length - 2)
  let b3 := b2 ++ ") VALUES "
  let r := rows.foldl (fun (acc : String × Nat) row =>
    (rowStep headers acc.1 row, acc.2 + 1)) (b3, 0)
  (removeAt r.1 (r.1.length - 2), r.2)

/-- `create_table_sql` from the source. -/
def create_table_sql (name : String) (items : List CsvHeader) : String :=
  let s0 := "CREATE TABLE IF NOT EXISTS " ++ name ++ " ("
  let s1 := items.foldl
    (fun acc h => acc ++ "\n  " ++ h.normalised ++ " " ++ h.ty_str ++ ",") s0
  let s2 := removeAt s1 (s1.length - 1)
  s2 ++ "\n);"

/-- Models the first-row read of `main` (lines 183–187).  The csv reader
is used in its default non-flexible mode, so a record whose field count
differs from the header count is yielded as `Err(UnequalLengths)`, and
`expect("first row")` aborts the program on it — before any descriptor,
CREATE TABLE or INSERT text exists. -/
def readFirstRow (headers : List String) (rawFirstRow : List String) :
    Except String (List String) :=
  if rawFirstRow.length = headers.length then .ok rawFirstRow
  else .error "first row"

/-- The header/sample zip of `main` (lines 188–196): pair each first-row
value with its header positionally, infer the type, and optionally force
every column to `String`. -/
def buildHeaders (noAutoDetectTypes : Bool) (headers : List String)
    (firstRow : List String) : List CsvHeader :=
  (firstRow.zip headers).map (fun p =>
    let h := CsvHeader.new p.2 (determine_sql_type p.1)
    if noAutoDetectTypes then h.with_type SqlType.String else h)

/-- The schema-build step of `main`: read the first row (which fails on a
field-count mismatch), then zip it with the headers. -/
def buildSchema (noAutoDetectTypes : Bool) (headers : List String)
    (rawFirstRow : List String) : Except String (List CsvHeader) :=
  (readFirstRow headers rawFirstRow).map (buildHeaders noAutoDetectTypes headers)

/-- Model of the ingestion loop's `chunks(batch_size)` (itertools):
consecutive chunks of `B` elements, the last possibly shorter.  (The
itertools call panics on `B = 0`; the model returns `[]` there, a case no
claim exercises.) -/
def chunksOf (B : Nat) : List α → List (List α)
  | [] => []
  | x :: xs =>
    if _h : B = 0 then []
    else (x :: xs).take B :: chunksOf B ((x :: xs).drop B)
termination_by l => l.length
decreasing_by
  simp only [List.length_drop, List.length_cons]
  omega

/-- Modelled from the spec: the destination database's SQL-standard string
unescaping is not part of this repository.  Per the spec's "SQL string
rules", the body of a single-quoted literal is decoded by collapsing each
doubled single quote into one single quote; every other character,
including a backslash, stands for itself. -/
def sqlUnescapeChars : List Char → List Char
  | [] => []
  | [c] => [c]
  | c1 :: c2 :: rest =>
    if c1 = squote ∧ c2 = squote then squote :: sqlUnescapeChars rest
    else c1 :: sqlUnescapeChars (c2 :: rest)

/-- Join a list of strings with a separator (no trailing separator). -/
def sepJoin (sep : String) : List String → String
  | [] => ""
  | [x] => x
  | x :: y :: r => x ++ sep ++ sepJoin sep (y :: r)

/-- Concatenation of a list of strings. -/
def strConcat : List String → String
  | [] => ""
  | x :: r => x ++ strConcat r

/-- Character test for the amended identifier claim: lower-case ASCII
letter, ASCII digit, or underscore. -/
def isValidIdentChar (c : Char) : Bool :=
  decide (('a' ≤ c ∧ c ≤ 'z') ∨ ('0' ≤ c ∧ c ≤ '9') ∨ c = '_')

/-! ## Helper lemmas -/

theorem char_le_iff {a b : Char} : a ≤ b ↔ a.toNat ≤ b.toNat := by
  simp [Char.le_def, UInt32.le_def, BitVec.le_def, Char.toNat, UInt32.toNat]

theorem char_eq_iff {a b : Char} : a = b ↔ a.toNat = b.toNat := by
  constructor
  · intro h; rw [h]
  · intro h
    have h2 := congrArg Char.ofNat h
    rwa [Char.ofNat_toNat, Char.ofNat_toNat] at h2

theorem char_toNat_ofNat {n : Nat} (h : n < 55296) : (Char.ofNat n).toNat = n := by
  have hv : n.isValidChar := Or.inl h
  rw [Char.ofNat, dif_pos hv]
  rfl

theorem toLower_eq_self {c : Char} (h : ¬(65 ≤ c.toNat ∧ c.toNat ≤ 90)) :
    Char.toLower c = c := by
  unfold Char.toLower
  rw [if_neg]
  simpa [ge_iff_le] using h

theorem toLower_upper {c : Char} (h1 : 65 ≤ c.toNat) (h2 : c.toNat ≤ 90) :
    (Char.toLower c).toNat = c.toNat + 32 := by
  unfold Char.toLower
  rw [if_pos ⟨h1, h2⟩]
  exact char_toNat_ofNat (by omega)

theorem isValidIdentChar_of {x : Char}
    (h : (97 ≤ x.toNat ∧ x.toNat ≤ 122) ∨ (48 ≤ x.toNat ∧ x.toNat ≤ 57) ∨
      x.toNat = 95) :
    isValidIdentChar x = true := by
  rw [isValidIdentChar, decide_eq_true_eq]
  rcases h with ⟨h1, h2⟩ | ⟨h1, h2⟩ | h1
  · exact Or.inl ⟨char_le_iff.mpr (by rw [(by decide : ('a').toNat = 97)]; omega),
      char_le_iff.mpr (by rw [(by decide : ('z').toNat = 122)]; omega)⟩
  · exact Or.inr (Or.inl
      ⟨char_le_iff.mpr (by rw [(by decide : ('0').toNat = 48)]; omega),
       char_le_iff.mpr (by rw [(by decide : ('9').toNat = 57)]; omega)⟩)
  · exact Or.inr (Or.inr
      (char_eq_iff.mpr (by rw [(by decide : ('_').toNat = 95)]; omega)))

/-- Every character produced by the normalisation pipeline (`normChar`
then `Char.toLower`) is a lower-case letter, a digit, or an underscore. -/
theorem valid_toLower_normChar (c : Char) :
    isValidIdentChar (Char.toLower (normChar c)) = true := by
  unfold normChar
  split
  next h =>
    rcases h with ⟨h1, h2⟩ | ⟨h1, h2⟩ | ⟨h1, h2⟩
    · rw [char_le_iff, (by decide : ('a').toNat = 97)] at h1
      rw [char_le_iff, (by decide : ('z').toNat = 122)] at h2
      rw [toLower_eq_self (by omega)]
      exact isValidIdentChar_of (Or.inl ⟨by omega, by omega⟩)
    · rw [char_le_iff, (by decide : ('A').toNat = 65)] at h1
      rw [char_le_iff, (by decide : ('Z').toNat = 90)] at h2
      have key := toLower_upper (c := c) (by omega) (by omega)
      exact isValidIdentChar_of (Or.inl ⟨by rw [key]; omega, by rw [key]; omega⟩)
    · rw [char_le_iff, (by decide : ('0').toNat = 48)] at h1
      rw [char_le_iff, (by decide : ('9').toNat = 57)] at h2
      rw [toLower_eq_self (by omega)]
      exact isValidIdentChar_of (Or.inr (Or.inl ⟨by omega, by omega⟩))
  next =>
    split
    next => decide
    next => decide

theorem mapped_all_valid (td : List Char) :
    ((td.map normChar).map Char.toLower).all isValidIdentChar = true := by
  rw [List.all_map, List.all_map]
  exact List.all_eq_true.mpr (fun x _ => valid_toLower_normChar x)

theorem normalizeHeader_all_valid (title : String) :
    (normalizeHeader title).data.all isValidIdentChar = true := by
  unfold normalizeHeader
  split
  next =>
    show (String.mk (((title.data.map normChar).map Char.toLower) ++ ['_'])).data.all
      isValidIdentChar = true
    rw [show (String.mk (((title.data.map normChar).map Char.toLower) ++ ['_'])).data
        = ((title.data.map normChar).map Char.toLower) ++ ['_'] from rfl]
    rw [List.all_append, mapped_all_valid title.data]
    decide
  next =>
    exact mapped_all_valid title.data

theorem normalizeHeader_empty_iff (title : String) :
    normalizeHeader title = "" ↔ title = "" := by
  unfold normalizeHeader
  split
  next hres =>
    constructor
    · intro h
      have hd := congrArg String.data h
      simp only [String.push] at hd
      exact absurd hd (by simp)
    · intro h
      subst h
      exact absurd hres (by decide)
  next =>
    constructor
    · intro h
      have hd : (title.data.map normChar).map Char.toLower = [] := congrArg String.data h
      have h1 : title.data.map normChar = [] := List.map_eq_nil_iff.mp hd
      have h2 : title.data = [] := List.map_eq_nil_iff.mp h1
      exact String.ext h2
    · intro h
      subst h
      rfl

theorem strConcat_append (l1 l2 : List String) :
    strConcat (l1 ++ l2) = strConcat l1 ++ strConcat l2 := by
  induction l1 with
  | nil => simp [strConcat]
  | cons x xs ih => simp [strConcat, ih, String.append_assoc]

theorem foldl_append_eq (f : α → String) (l : List α) (b : String) :
    l.foldl (fun acc x => acc ++ f x) b = b ++ strConcat (l.map f) := by
  induction l generalizing b with
  | nil => simp [strConcat]
  | cons x xs ih => simp [List.foldl_cons, strConcat, ih, String.append_assoc]

theorem strConcat_map_sep (sep : String) :
    ∀ (ls : List String), ls ≠ [] →
      strConcat (ls.map (fun x => x ++ sep)) = sepJoin sep ls ++ sep
  | [], hne => absurd rfl hne
  | [x], _ => by simp [strConcat, sepJoin]
  | x :: y :: r, _ => by
    have ih := strConcat_map_sep sep (y :: r) (by simp)
    simp only [List.map_cons] at ih ⊢
    rw [strConcat, ih, sepJoin]
    simp [String.append_assoc]

theorem removeAt_append_sep (x : String) :
    removeAt (x ++ ", ") ((x ++ ", ").length - 2) = x ++ " " := by
  apply String.ext
  show ((x ++ ", ").data.eraseIdx ((x ++ ", ").length - 2)) = (x ++ " ").data
  rw [String.data_append, String.data_append]
  rw [show (", " : String).data = [',', ' '] from rfl,
    show (" " : String).data = [' '] from rfl]
  rw [show (x ++ ", ").length = x.length + 2 by
    rw [String.length_append]; rfl]
  rw [Nat.add_sub_cancel]
  rw [show x.length = x.data.length from rfl]
  rw [List.eraseIdx_append_of_length_le (Nat.le_refl _), Nat.sub_self]
  rfl

theorem removeAt_append_one (x : String) :
    removeAt (x ++ ",") ((x ++ ",").length - 1) = x := by
  apply String.ext
  show ((x ++ ",").data.eraseIdx ((x ++ ",").length - 1)) = x.data
  rw [String.data_append, show ("," : String).data = [','] from rfl]
  rw [show (x ++ ",").length = x.length + 1 by
    rw [String.length_append]; rfl]
  rw [Nat.add_sub_cancel]
  rw [show x.length = x.data.length from rfl]
  rw [List.eraseIdx_append_of_length_le (Nat.le_refl _), Nat.sub_self]
  simp

theorem renderField_eq (h : CsvHeader) (v : String) :
    renderField h v = renderValue h v ++ ", " := by
  unfold renderField renderValue
  split
  · decide
  · split
    · simp [String.append_assoc]
    · rfl

theorem foldl_render_eq (l : List (CsvHeader × String)) (b : String) :
    l.foldl (fun acc p => acc ++ renderField p.1 p.2) b
      = b ++ strConcat (l.map fun p => renderField p.1 p.2) :=
  foldl_append_eq (fun p => renderField p.1 p.2) l b

theorem foldl_norm_eq (hs : List CsvHeader) (b : String) :
    hs.foldl (fun acc h => acc ++ h.normalised ++ ", ") b
      = b ++ strConcat (hs.map fun h => h.normalised ++ ", ") := by
  have h1 : (fun (acc : String) (h : CsvHeader) => acc ++ h.normalised ++ ", ")
      = fun (acc : String) (h : CsvHeader) => acc ++ (h.normalised ++ ", ") := by
    funext acc h
    rw [String.append_assoc]
  rw [h1]
  exact foldl_append_eq (fun h => h.normalised ++ ", ") hs b

theorem foldl_col_eq (items : List CsvHeader) (b : String) :
    items.foldl (fun acc h => acc ++ "\n  " ++ h.normalised ++ " " ++ h.ty_str ++ ",") b
      = b ++ strConcat (items.map fun h =>
          "\n  " ++ h.normalised ++ " " ++ h.ty_str ++ ",") := by
  have h1 : (fun (acc : String) (h : CsvHeader) =>
        acc ++ "\n  " ++ h.normalised ++ " " ++ h.ty_str ++ ",")
      = fun (acc : String) (h : CsvHeader) =>
        acc ++ ("\n  " ++ h.normalised ++ " " ++ h.ty_str ++ ",") := by
    funext acc h
    simp [String.append_assoc]
  rw [h1]
  exact foldl_append_eq (fun h => "\n  " ++ h.normalised ++ " " ++ h.ty_str ++ ",") items b

theorem zip_ne_nil {α β : Type} {l1 : List α} {l2 : List β}
    (h1 : l1 ≠ []) (h2 : l2 ≠ []) : l1.zip l2 ≠ [] := by
  cases l1 with
  | nil => exact absurd rfl h1
  | cons x xs =>
    cases l2 with
    | nil => exact absurd rfl h2
    | cons y ys => simp [List.zip_cons_cons]

theorem rowStep_eq (hs : List CsvHeader) (b : String) (row : List String)
    (hz : hs.zip row ≠ []) :
    rowStep hs b row
      = b ++ ("(" ++ sepJoin ", " ((hs.zip row).map fun p => renderValue p.1 p.2)
          ++ " " ++ "), ") := by
  unfold rowStep
  dsimp only
  rw [foldl_render_eq]
  rw [show ((hs.zip row).map fun p => renderField p.1 p.2)
      = (((hs.zip row).map fun p => renderValue p.1 p.2).map fun x => x ++ ", ") by
    rw [List.map_map]
    exact List.map_congr_left (fun p _ => renderField_eq p.1 p.2)]
  rw [strConcat_map_sep ", " _ (by simpa using hz)]
  rw [← String.append_assoc]
  rw [removeAt_append_sep]
  simp [String.append_assoc]

theorem rows_foldl_fst (hs : List CsvHeader) :
    ∀ (rows : List (List String)) (b : String) (n : Nat),
      (∀ r ∈ rows, hs.zip r ≠ []) →
      (rows.foldl (fun acc row => (rowStep hs acc.1 row, acc.2 + 1)) (b, n)).1
        = b ++ strConcat (rows.map fun row =>
            "(" ++ sepJoin ", " ((hs.zip row).map fun p => renderValue p.1 p.2)
              ++ " " ++ "), ")
  | [], b, n, _ => by simp [strConcat]
  | r :: rs, b, n, hz => by
    rw [List.foldl_cons]
    rw [rows_foldl_fst hs rs _ _ (fun x hx => hz x (List.mem_cons_of_mem r hx))]
    rw [rowStep_eq hs b r (hz r (List.mem_cons_self r rs))]
    simp [strConcat, String.append_assoc]

theorem rows_foldl_snd (hs : List CsvHeader) :
    ∀ (rows : List (List String)) (b : String) (n : Nat),
      (rows.foldl (fun acc row => (rowStep hs acc.1 row, acc.2 + 1)) (b, n)).2
        = n + rows.length
  | [], _, _ => by simp
  | r :: rs, b, n => by
    rw [List.foldl_cons, rows_foldl_snd hs rs _ _]
    simp only [List.length_cons]
    omega

/-- The row count returned by `insert_row_sql_batch` is the number of rows
of the batch, unconditionally. -/
theorem insert_batch_snd (table : String) (hs : List CsvHeader)
    (rows : List (List String)) :
    (insert_row_sql_batch table hs rows).2 = rows.length := by
  unfold insert_row_sql_batch
  rw [rows_foldl_snd hs rows _ 0]
  omega

/-- General form of the INSERT text built by `insert_row_sql_batch`:
comma-space separators, a space before every closing parenthesis (left by
the trailing-comma removal), no semicolon, and a final trailing space. -/
theorem insert_batch_fst (table : String) (hs : List CsvHeader)
    (rows : List (List String)) (hhs : hs ≠ []) (hrows : rows ≠ [])
    (hr : ∀ r ∈ rows, r ≠ []) :
    (insert_row_sql_batch table hs rows).1
      = "INSERT INTO " ++ table ++ " (" ++ sepJoin ", " (hs.map (·.normalised))
        ++ " ) VALUES "
        ++ sepJoin ", " (rows.map fun row =>
            "(" ++ sepJoin ", " ((hs.zip row).map fun p => renderValue p.1 p.2)
              ++ " )")
        ++ " " := by
  unfold insert_row_sql_batch
  dsimp only
  rw [foldl_norm_eq]
  rw [show (hs.map fun h => h.normalised ++ ", ")
      = ((hs.map fun h => h.normalised).map fun x => x ++ ", ") by
    rw [List.map_map]
    rfl]
  rw [strConcat_map_sep ", " _ (by simpa using hhs)]
  rw [← String.append_assoc]
  rw [removeAt_append_sep]
  rw [rows_foldl_fst hs rows _ 0 (fun r hrr => zip_ne_nil hhs (hr r hrr))]
  rw [show (rows.map fun row =>
        "(" ++ sepJoin ", " ((hs.zip row).map fun p => renderValue p.1 p.2)
          ++ " " ++ "), ")
      = ((rows.map fun row =>
          "(" ++ sepJoin ", " ((hs.zip row).map fun p => renderValue p.1 p.2)
            ++ " )").map fun x => x ++ ", ") by
    rw [List.map_map]
    apply List.map_congr_left
    intro row _
    rw [(by decide : ("), " : String) = ")" ++ ", ")]
    rw [(by decide : (" )" : String) = " " ++ ")")]
    simp [String.append_assoc]]
  rw [strConcat_map_sep ", " _ (by simpa using hrows)]
  rw [← String.append_assoc]
  rw [removeAt_append_sep]
  rw [(by decide : (" ) VALUES " : String) = " " ++ ") VALUES ")]
  simp [String.append_assoc]

/-- General form of the CREATE TABLE text built by `create_table_sql`. -/
theorem create_table_eq (name : String) (items : List CsvHeader)
    (hne : items ≠ []) :
    create_table_sql name items
      = "CREATE TABLE IF NOT EXISTS " ++ name ++ " ("
        ++ sepJoin "," (items.map fun h => "\n  " ++ h.normalised ++ " " ++ h.ty_str)
        ++ "\n);" := by
  unfold create_table_sql
  dsimp only
  rw [foldl_col_eq]
  rw [show (items.map fun h => "\n  " ++ h.normalised ++ " " ++ h.ty_str ++ ",")
      = ((items.map fun h => "\n  " ++ h.normalised ++ " " ++ h.ty_str).map
          fun x => x ++ ",") by
    rw [List.map_map]
    apply List.map_congr_left
    intro h _
    simp [String.append_assoc]]
  rw [strConcat_map_sep "," _ (by simpa using hne)]
  rw [← String.append_assoc]
  rw [removeAt_append_one]

theorem chunksOf_ne_nil {α : Type} (B : Nat) (hB : 0 < B) (l : List α)
    (hl : l ≠ []) : chunksOf B l ≠ [] := by
  cases l with
  | nil => exact absurd rfl hl
  | cons x xs =>
    rw [chunksOf]
    rw [dif_neg (by omega)]
    simp

theorem chunksOf_flatten {α : Type} (B : Nat) (hB : 0 < B) :
    ∀ (l : List α), (chunksOf B l).flatten = l
  | [] => by simp [chunksOf]
  | x :: xs => by
    rw [chunksOf]
    rw [dif_neg (by omega)]
    rw [List.flatten_cons]
    rw [chunksOf_flatten B hB ((x :: xs).drop B)]
    exact List.take_append_drop B (x :: xs)
termination_by l => l.length
decreasing_by
  simp only [List.length_drop, List.length_cons]
  omega

theorem chunksOf_length {α : Type} (B : Nat) (hB : 0 < B) :
    ∀ (l : List α), (chunksOf B l).length = (l.length + B - 1) / B
  | [] => by
    simp only [chunksOf, List.length_nil]
    exact (Nat.div_eq_of_lt (by omega)).symm
  | x :: xs => by
    rw [chunksOf]
    rw [dif_neg (by omega)]
    rw [List.length_cons]
    rw [chunksOf_length B hB ((x :: xs).drop B)]
    rw [List.length_drop]
    by_cases hnB : (x :: xs).length ≤ B
    · rw [show (x :: xs).length - B = 0 by omega]
      rw [Nat.div_eq_of_lt (show 0 + B - 1 < B by omega)]
      have hpos : 1 ≤ (x :: xs).length := by simp
      have h1 : ((x :: xs).length + B - 1) / B = 1 :=
        Nat.div_eq_of_lt_le (by omega) (by omega)
      omega
    · rw [show (x :: xs).length - B + B - 1 = (x :: xs).length - 1 by omega]
      rw [show (x :: xs).length + B - 1 = ((x :: xs).length - 1) + B by
        have : 1 ≤ (x :: xs).length := by simp
        omega]
      rw [Nat.add_div_right _ hB]
termination_by l => l.length
decreasing_by
  simp only [List.length_drop, List.length_cons]
  omega

theorem chunksOf_dropLast {α : Type} (B : Nat) (hB : 0 < B) :
    ∀ (l : List α), ∀ c ∈ (chunksOf B l).dropLast, c.length = B
  | [] => by simp [chunksOf]
  | x :: xs => by
    intro c hc
    rw [chunksOf] at hc
    rw [dif_neg (by omega)] at hc
    by_cases hd : (x :: xs).drop B = []
    · rw [hd] at hc
      rw [show chunksOf B ([] : List α) = [] from by simp [chunksOf]] at hc
      simp at hc
    · cases hchunks : chunksOf B ((x :: xs).drop B) with
      | nil => exact absurd hchunks (chunksOf_ne_nil B hB _ hd)
      | cons c2 cs =>
        rw [hchunks] at hc
        rw [List.dropLast_cons₂] at hc
        rcases List.mem_cons.mp hc with hceq | hcmem
        · subst hceq
          rw [List.length_take]
          have : B < (x :: xs).length := by
            have := List.drop_eq_nil_iff.not.mp hd
            omega
          omega
        · exact chunksOf_dropLast B hB ((x :: xs).drop B) c
            (by rw [hchunks]; exact hcmem)
termination_by l => l.length
decreasing_by
  simp only [List.length_drop, List.length_cons]
  omega

theorem chunksOf_getLast {α : Type} (B : Nat) (hB : 0 < B) :
    ∀ (l : List α) (c : List α), (chunksOf B l).getLast? = some c →
      c.length = if l.length % B = 0 then B else l.length % B
  | [] => by
    intro c hc
    simp [chunksOf] at hc
  | x :: xs => by
    intro c hc
    rw [chunksOf] at hc
    rw [dif_neg (by omega)] at hc
    by_cases hd : (x :: xs).drop B = []
    · rw [hd] at hc
      rw [show chunksOf B ([] : List α) = [] from by simp [chunksOf]] at hc
      rw [List.getLast?_singleton] at hc
      have hle : (x :: xs).length ≤ B := List.drop_eq_nil_iff.mp hd
      have hpos : 1 ≤ (x :: xs).length := by simp
      have hclen : c.length = (x :: xs).length := by
        rw [← Option.some_inj.mp hc, List.length_take]
        omega
      by_cases hmod : (x :: xs).length % B = 0
      · rw [if_pos hmod, hclen]
        have hdvd := Nat.dvd_of_mod_eq_zero hmod
        exact Nat.le_antisymm hle (Nat.le_of_dvd (by omega) hdvd)
      · rw [if_neg hmod, hclen]
        have hlt : (x :: xs).length < B := by
          rcases Nat.lt_or_ge (x :: xs).length B with h | h
          · exact h
          · exact absurd (by rw [Nat.le_antisymm hle h, Nat.mod_self]) hmod
        exact (Nat.mod_eq_of_lt hlt).symm
    · cases hchunks : chunksOf B ((x :: xs).drop B) with
      | nil => exact absurd hchunks (chunksOf_ne_nil B hB _ hd)
      | cons c2 cs =>
        rw [hchunks, List.getLast?_cons_cons] at hc
        have hgt : B < (x :: xs).length := by
          have := List.drop_eq_nil_iff.not.mp hd
          omega
        have ih := chunksOf_getLast B hB ((x :: xs).drop B) c
          (by rw [hchunks]; exact hc)
        rw [List.length_drop] at ih
        have hmodeq : ((x :: xs).length - B) % B = (x :: xs).length % B := by
          conv_rhs => rw [show (x :: xs).length = ((x :: xs).length - B) + B by omega]
          rw [Nat.add_mod_right]
        rw [hmodeq] at ih
        exact ih
termination_by l => l.length
decreasing_by
  simp only [List.length_drop, List.length_cons]
  omega

/-- Round-trip of SQL-standard unescaping against the source's escaping,
for values containing no double quote. -/
theorem unescape_escape_no_dquote :
    ∀ (v : List Char), dquote ∉ v →
      sqlUnescapeChars (v.flatMap fun x => if x = squote then [squote, squote] else [x]) = v
  | [], _ => rfl
  | c :: rest, hnd => by
    have hrest : dquote ∉ rest := fun hmem => hnd (List.mem_cons_of_mem c hmem)
    by_cases hc : c = squote
    · subst hc
      rw [List.flatMap_cons, if_pos rfl]
      show sqlUnescapeChars (squote :: squote :: _) = _
      rw [sqlUnescapeChars]
      rw [if_pos ⟨rfl, rfl⟩]
      show squote :: sqlUnescapeChars
          (rest.flatMap fun x => if x = squote then [squote, squote] else [x])
        = squote :: rest
      rw [unescape_escape_no_dquote rest hrest]
    · rw [List.flatMap_cons, if_neg hc]
      cases hflat : rest.flatMap (fun x => if x = squote then [squote, squote] else [x]) with
      | nil =>
        have : rest = [] := by
          cases rest with
          | nil => rfl
          | cons y ys =>
            rw [List.flatMap_cons] at hflat
            by_cases hy : y = squote <;> simp [hy] at hflat
        subst this
        rfl
      | cons d ds =>
        show sqlUnescapeChars (c :: d :: ds) = _
        rw [sqlUnescapeChars]
        rw [if_neg (fun hand => hc hand.1)]
        rw [← hflat, unescape_escape_no_dquote rest hrest]

theorem flatMap_dquote_id :
    ∀ (l : List Char), dquote ∉ l →
      (l.flatMap fun x => if x = dquote then [bslash, dquote] else [x]) = l
  | [], _ => rfl
  | y :: ys, hnd => by
    rw [List.flatMap_cons]
    rw [if_neg (fun hy => hnd (by rw [← hy]; exact List.mem_cons_self y ys))]
    rw [flatMap_dquote_id ys (fun hmem => hnd (List.mem_cons_of_mem y hmem))]
    rfl

/-- With no double quote in the value, the double-quote replacement is the
identity, so `escapeValue` only doubles single quotes. -/
theorem escapeValue_no_dquote (v : String) (hnd : dquote ∉ v.data) :
    (escapeValue v).data
      = v.data.flatMap fun x => if x = squote then [squote, squote] else [x] := by
  unfold escapeValue replaceChar
  show ((String.mk (v.data.flatMap fun x => if x = dquote then [bslash, dquote] else [x])).data.flatMap
      fun x => if x = squote then [squote, squote] else [x]) = _
  rw [show (String.mk (v.data.flatMap fun x => if x = dquote then [bslash, dquote] else [x])).data
      = v.data.flatMap fun x => if x = dquote then [bslash, dquote] else [x] from rfl]
  rw [flatMap_dquote_id v.data hnd]

/-! ## Claim theorems -/

/-- C1, counterexample: on the spec's own example (table `t`, descriptors
(id,Integer),(name,String),(active,Boolean), rows (1,Alice,true) and
(2,,false)) the batch INSERT text is NOT the claimed string: the source
removes each trailing comma but keeps the space after it, leaving a space
before every closing parenthesis, and appends no semicolon. -/
theorem C1_counterexample :
    (insert_row_sql_batch "t" [CsvHeader.new "id" SqlType.Integer,
        CsvHeader.new "name" SqlType.String, CsvHeader.new "active" SqlType.Boolean]
        [["1", "Alice", "true"], ["2", "", "false"]]).1
      ≠ "INSERT INTO t (id, name, active) VALUES (1, \x27Alice\x27, true), (2, NULL, false);" := by
  decide

/-- C1, amended: for every table, non-empty descriptor list and non-empty
batch of non-empty rows, `insert_row_sql_batch` produces
`INSERT INTO <table> (<col1>, <col2>, ... ) VALUES (<v1>, <v2>, ... ), ... ) `
— comma-space separators, a space before every closing parenthesis, no
terminating semicolon, and a trailing space; in particular the spec's
example yields
`INSERT INTO t (id, name, active ) VALUES (1, 'Alice', true ), (2, NULL, false ) `. -/
theorem C1_insert_format (table : String) (hs : List CsvHeader)
    (rows : List (List String)) (hhs : hs ≠ []) (hrows : rows ≠ [])
    (hr : ∀ r ∈ rows, r ≠ []) :
    ((insert_row_sql_batch table hs rows).1
      = "INSERT INTO " ++ table ++ " (" ++ sepJoin ", " (hs.map (·.normalised))
        ++ " ) VALUES "
        ++ sepJoin ", " (rows.map fun row =>
            "(" ++ sepJoin ", " ((hs.zip row).map fun p => renderValue p.1 p.2)
              ++ " )")
        ++ " ")
  ∧ (insert_row_sql_batch "t" [CsvHeader.new "id" SqlType.Integer,
        CsvHeader.new "name" SqlType.String, CsvHeader.new "active" SqlType.Boolean]
        [["1", "Alice", "true"], ["2", "", "false"]]).1
      = "INSERT INTO t (id, name, active ) VALUES (1, \x27Alice\x27, true ), (2, NULL, false ) " :=
  ⟨insert_batch_fst table hs rows hhs hrows hr, by decide⟩

/-- C1, witness: the amended format theorem applied to the spec's example. -/
theorem C1_insert_format_witness :
    (insert_row_sql_batch "t" [CsvHeader.new "id" SqlType.Integer,
        CsvHeader.new "name" SqlType.String, CsvHeader.new "active" SqlType.Boolean]
        [["1", "Alice", "true"], ["2", "", "false"]]).1
      = "INSERT INTO " ++ "t" ++ " ("
        ++ sepJoin ", " ([CsvHeader.new "id" SqlType.Integer,
            CsvHeader.new "name" SqlType.String,
            CsvHeader.new "active" SqlType.Boolean].map (·.normalised))
        ++ " ) VALUES "
        ++ sepJoin ", " (([["1", "Alice", "true"], ["2", "", "false"]] :
              List (List String)).map fun row =>
            "(" ++ sepJoin ", " (([CsvHeader.new "id" SqlType.Integer,
                CsvHeader.new "name" SqlType.String,
                CsvHeader.new "active" SqlType.Boolean].zip row).map
                  fun p => renderValue p.1 p.2)
              ++ " )")
        ++ " " :=
  (C1_insert_format "t" _ _ (by decide) (by decide) (by decide)).1

/-- C2: when the sample row has fewer fields than there are headers, the
schema-build step fails (the csv reader yields `UnequalLengths` for the
record and `expect("first row")` aborts) before any descriptor or SQL text
is produced; no header is silently dropped. -/
theorem C2_schema_mismatch (noAuto : Bool) (headers firstRow : List String)
    (h : firstRow.length < headers.length) :
    buildSchema noAuto headers firstRow = .error "first row" := by
  unfold buildSchema readFirstRow
  rw [if_neg (by omega)]
  rfl

/-- C2, witness: two headers, a one-field sample row. -/
theorem C2_schema_mismatch_witness :
    buildSchema false ["a", "b"] ["1"] = .error "first row" :=
  C2_schema_mismatch false ["a", "b"] ["1"] (by decide)

/-- C3, counterexample: the empty header normalises to the empty string,
refuting the claim that the normalised identifier is always non-empty. -/
theorem C3_counterexample :
    ¬ ((CsvHeader.new "" SqlType.String).normalised ≠ "") := by
  decide

/-- C3, amended: every character of the normalised identifier is in
`[a-z0-9_]`, and the identifier is empty exactly when the header itself is
empty (so it is non-empty for every non-empty header). -/
theorem C3_normalized_identifier (title : String) (ty : SqlType) :
    (CsvHeader.new title ty).normalised.data.all isValidIdentChar = true
  ∧ ((CsvHeader.new title ty).normalised = "" ↔ title = "") :=
  ⟨normalizeHeader_all_valid title, normalizeHeader_empty_iff title⟩

/-- C4, counterexample: unescaping the rendered literal for
`O'Brien "The Boss"` by the SQL-standard rule (collapse doubled single
quotes; backslash is an ordinary character) yields `O'Brien \"The Boss\"`,
not the original bytes — the round-trip fails for values containing a
double quote. -/
theorem C4_counterexample :
    String.mk (sqlUnescapeChars (escapeValue "O\x27Brien \x22The Boss\x22").data)
      ≠ "O\x27Brien \x22The Boss\x22" := by
  decide

/-- C4, amended: the value `O'Brien "The Boss"` renders exactly as
`'O''Brien \"The Boss\"'` (double-quote escaping before single-quote
doubling), but SQL-standard unescaping recovers the original bytes only
for values that contain no double quote; for those the round-trip holds. -/
theorem C4_escape_roundtrip :
    renderValue (CsvHeader.new "name" SqlType.String) "O\x27Brien \x22The Boss\x22"
        = "\x27O\x27\x27Brien \\\x22The Boss\\\x22\x27"
  ∧ ∀ v : String, dquote ∉ v.data →
      String.mk (sqlUnescapeChars (escapeValue v).data) = v := by
  constructor
  · decide
  · intro v hnd
    apply String.ext
    show sqlUnescapeChars (escapeValue v).data = v.data
    rw [escapeValue_no_dquote v hnd]
    exact unescape_escape_no_dquote v.data hnd

/-- C4, witness: the round-trip at the double-quote-free value `O'Brien`. -/
theorem C4_escape_roundtrip_witness :
    String.mk (sqlUnescapeChars (escapeValue "O\x27Brien").data) = "O\x27Brien" :=
  C4_escape_roundtrip.2 "O\x27Brien" (by decide)

/-- C5: `determine_sql_type` tries Integer, Float, IsoDateTime, NaiveDate,
Boolean in this fixed order and returns the first match, else String; on
the spec's examples it gives Integer, Float, NaiveDate, IsoDateTime,
Boolean, String, and Integer (not NaiveDate) for `2024`. -/
theorem C5_type_inference :
    (∀ s, parseI64ok s = true → determine_sql_type s = .Integer)
  ∧ (∀ s, parseI64ok s = false → parseF64ok s = true →
      determine_sql_type s = .Float)
  ∧ (∀ s, parseI64ok s = false → parseF64ok s = false → rfc3339Ok s = true →
      determine_sql_type s = .IsoDateTime)
  ∧ (∀ s, parseI64ok s = false → parseF64ok s = false → rfc3339Ok s = false →
      naiveDateOk s = true → determine_sql_type s = .NaiveDate)
  ∧ (∀ s, parseI64ok s = false → parseF64ok s = false → rfc3339Ok s = false →
      naiveDateOk s = false →
      (eqIgnoreAsciiCase s "true" || eqIgnoreAsciiCase s "false") = true →
      determine_sql_type s = .Boolean)
  ∧ (∀ s, parseI64ok s = false → parseF64ok s = false → rfc3339Ok s = false →
      naiveDateOk s = false →
      (eqIgnoreAsciiCase s "true" || eqIgnoreAsciiCase s "false") = false →
      determine_sql_type s = .String)
  ∧ determine_sql_type "42" = .Integer
  ∧ determine_sql_type "42.5" = .Float
  ∧ determine_sql_type "2024-01-05" = .NaiveDate
  ∧ determine_sql_type "2024-01-05T10:00:00Z" = .IsoDateTime
  ∧ determine_sql_type "true" = .Boolean
  ∧ determine_sql_type "hello" = .String
  ∧ determine_sql_type "2024" = .Integer := by
  refine ⟨?_, ?_, ?_, ?_, ?_, ?_, ?_, ?_, ?_, ?_, ?_, ?_, ?_⟩
  · intro s h1
    simp [determine_sql_type, h1]
  · intro s h1 h2
    simp [determine_sql_type, h1, h2]
  · intro s h1 h2 h3
    simp [determine_sql_type, h1, h2, h3]
  · intro s h1 h2 h3 h4
    simp [determine_sql_type, h1, h2, h3, h4]
  · intro s h1 h2 h3 h4 h5
    simp [determine_sql_type, h1, h2, h3, h4, h5]
  · intro s h1 h2 h3 h4 h5
    simp [determine_sql_type, h1, h2, h3, h4, h5]
  · decide
  · decide
  · decide
  · decide
  · decide
  · decide
  · decide

/-- C5, witness: the first-match rule applied at `42`. -/
theorem C5_type_inference_witness : determine_sql_type "42" = SqlType.Integer :=
  C5_type_inference.1 "42" (by decide)

/-- C6: for batch size `B > 0` the chunking of the row stream concatenates
back to the stream, produces `⌈N/B⌉` batches, every batch before the last
has exactly `B` rows, the last has `N mod B` rows (`B` when `B ∣ N`), and
the count `insert_row_sql_batch` returns equals the number of rows of its
batch. -/
theorem C6_batching {α : Type} (B : Nat) (hB : 0 < B) (l : List α) :
    (chunksOf B l).flatten = l
  ∧ (chunksOf B l).length = (l.length + B - 1) / B
  ∧ (∀ c ∈ (chunksOf B l).dropLast, c.length = B)
  ∧ (∀ c : List α, (chunksOf B l).getLast? = some c →
      c.length = if l.length % B = 0 then B else l.length % B)
  ∧ (∀ (table : String) (hs : List CsvHeader) (rows : List (List String)),
      (insert_row_sql_batch table hs rows).2 = rows.length) :=
  ⟨chunksOf_flatten B hB l, chunksOf_length B hB l, chunksOf_dropLast B hB l,
   chunksOf_getLast B hB l, insert_batch_snd⟩

/-- C6, witness: four rows in batches of three give `⌈4/3⌉ = 2` batches. -/
theorem C6_batching_witness :
    0 < 3 ∧ (chunksOf 3 [["a"], ["b"], ["c"], ["d"]]).length
      = (([["a"], ["b"], ["c"], ["d"]] : List (List String)).length + 3 - 1) / 3 :=
  ⟨by decide, (C6_batching 3 (by decide) _).2.1⟩

/-- C7: an empty field renders as the bare unquoted literal `NULL`
(followed by the field separator), whatever the column's descriptor and
quoting policy. -/
theorem C7_empty_null (h : CsvHeader) :
    renderField h "" = "NULL, " ∧ renderValue h "" = "NULL" := by
  constructor
  · unfold renderField
    rw [if_pos rfl]
  · unfold renderValue
    rw [if_pos rfl]

/-- C8: `create_table_sql` emits exactly
`CREATE TABLE IF NOT EXISTS <table> (\n  <col> <TYPE>,\n  ...\n);` with one
line per column and the keyword map String→TEXT, Integer→INTEGER,
Float→REAL, IsoDateTime→TIMESTAMP, NaiveDate→DATE, Boolean→BOOLEAN, and no
primary key, constraint or NOT NULL text; the spec's example is
reproduced character for character. -/
theorem C8_create_table (name : String) (items : List CsvHeader)
    (hne : items ≠ []) :
    (create_table_sql name items
      = "CREATE TABLE IF NOT EXISTS " ++ name ++ " ("
        ++ sepJoin "," (items.map fun h => "\n  " ++ h.normalised ++ " " ++ h.ty_str)
        ++ "\n);")
  ∧ (∀ h : CsvHeader, (h.ty = SqlType.String → h.ty_str = "TEXT")
      ∧ (h.ty = SqlType.Integer → h.ty_str = "INTEGER")
      ∧ (h.ty = SqlType.Float → h.ty_str = "REAL")
      ∧ (h.ty = SqlType.IsoDateTime → h.ty_str = "TIMESTAMP")
      ∧ (h.ty = SqlType.NaiveDate → h.ty_str = "DATE")
      ∧ (h.ty = SqlType.Boolean → h.ty_str = "BOOLEAN"))
  ∧ create_table_sql "t" [CsvHeader.new "id" SqlType.Integer,
      CsvHeader.new "name" SqlType.String, CsvHeader.new "active" SqlType.Boolean]
      = "CREATE TABLE IF NOT EXISTS t (\n  id INTEGER,\n  name TEXT,\n  active BOOLEAN\n);" := by
  refine ⟨create_table_eq name items hne, ?_, by decide⟩
  intro h
  refine ⟨?_, ?_, ?_, ?_, ?_, ?_⟩ <;>
    (intro hty; simp [CsvHeader.ty_str, hty])

/-- C8, witness: the general format theorem applied to a one-column
table. -/
theorem C8_create_table_witness :
    create_table_sql "x" [CsvHeader.new "a" SqlType.Float]
      = "CREATE TABLE IF NOT EXISTS " ++ "x" ++ " ("
        ++ sepJoin "," ([CsvHeader.new "a" SqlType.Float].map
            fun h => "\n  " ++ h.normalised ++ " " ++ h.ty_str)
        ++ "\n);" :=
  (C8_create_table "x" [CsvHeader.new "a" SqlType.Float] (by decide)).1

/-- C9: normalising any of the 116 reserved words appends exactly one
trailing underscore. -/
theorem C9_reserved (k : String) (ty : SqlType) (hk : k ∈ RESERVED) :
    (CsvHeader.new k ty).normalised = k ++ "_" := by
  have hall : RESERVED.all (fun w => normalizeHeader w == w ++ "_") = true := by
    decide
  exact eq_of_beq (List.all_eq_true.mp hall k hk)

/-- C9, witness: the reserved word `add`. -/
theorem C9_reserved_witness :
    (CsvHeader.new "add" SqlType.String).normalised = "add" ++ "_" :=
  C9_reserved "add" SqlType.String (by decide)

/-- C10: `insert_row_sql_batch` pairs fields with descriptors positionally
(`zip`): a short row contributes `min` many values with no NULL padding
while the column list still names every descriptor, and surplus fields are
ignored (a row with an extra field produces the same statement). -/
theorem C10_row_zip :
    (∀ (hs : List CsvHeader) (r : List String),
        ((hs.zip r).map fun p => renderValue p.1 p.2).length
          = min hs.length r.length)
  ∧ (insert_row_sql_batch "t" [CsvHeader.new "id" SqlType.Integer,
        CsvHeader.new "name" SqlType.String, CsvHeader.new "active" SqlType.Boolean]
        [["1", "Alice", "true"], ["2"]]).1
      = "INSERT INTO t (id, name, active ) VALUES (1, \x27Alice\x27, true ), (2 ) "
  ∧ (insert_row_sql_batch "t" [CsvHeader.new "id" SqlType.Integer,
        CsvHeader.new "name" SqlType.String, CsvHeader.new "active" SqlType.Boolean]
        [["1", "Alice", "true", "EXTRA"]]).1
      = (insert_row_sql_batch "t" [CsvHeader.new "id" SqlType.Integer,
        CsvHeader.new "name" SqlType.String, CsvHeader.new "active" SqlType.Boolean]
        [["1", "Alice", "true"]]).1 := by
  refine ⟨?_, by decide, by decide⟩
  intro hs r
  rw [List.length_map, List.length_zip]

end CsvToSqlite
